import Mathlib

/-!
Verification of the Taiga note / partial-transaction protocol core.

This file shallowly embeds the parts of the repository needed to settle the
frozen claims: the net value commitment (`taiga_halo2/src/net_value_commitment.rs`),
the API-context note lookup (`taiga_halo2/src/api.rs`), the Action builder
(`src/halo2/action.rs`), the zk-garage balance validity predicate
(`taiga_zk_garage/src/circuit/vp_examples/balance.rs`), the borsh-serialized
VP bytecode types (`taiga_halo2/src/circuit/vp_bytecode.rs`) and the
partial-fulfillment token-swap example
(`taiga_halo2/examples/tx_examples/partial_fulfillment_token_swap.rs`).

Modelling conventions:
* the pallas elliptic-curve group (an external crate) is modelled as an
  abstract additive commutative group `G`; the two distinguished points used
  by the code (the curve generator and `NOTE_COMMITMENT_R_GENERATOR`) are
  passed as explicit parameters;
* `u64` / `u32` values are `Nat` (they are always small enough that no
  overflow arises in the translated code paths), scalars acting on the group
  are `Int` (every theorem proved over an arbitrary `Int` scalar action holds
  in particular for the pallas scalar field acting on the pallas group);
* Rust panics (`unwrap` on `None`) are modelled by an `Option` result, with
  `none` standing for the panic;
* hash functions, PRFs and note-commitment functions live in crates or files
  that are outside the sources; they are abstracted as explicit function
  parameters, so every theorem holds for any instantiation of them.
-/

/-! ## Net value commitment (`taiga_halo2/src/net_value_commitment.rs`) -/

/-- Note as consumed by `NetValueCommitment::new`: the fields of the
`taiga_halo2` note that `net_value_commitment.rs` reads (`is_normal`,
`app`, `data`, `value`).  The application descriptor `App` and the base-field
datum are opaque identifiers here, modelled as `Nat`. -/
structure NvcNote where
  is_normal : Bool
  app : Nat
  data : Nat
  value : Nat
  deriving Repr, DecidableEq

/-- Translation of `derivate_value_base`: the source ignores all three
arguments and returns the fixed curve generator (`pallas::Point::generator()`),
passed here as the explicit parameter `generator`. -/
def derivate_value_base {G : Type} (generator : G) (_is_normal : Bool)
    (_app_address : Nat) (_data : Nat) : G :=
  generator

/-- Translation of the `NetValueCommitment` wrapper struct: it holds one
group element. -/
structure NetValueCommitment (G : Type) where
  point : G
  deriving DecidableEq

/-- Translation of `NetValueCommitment::new`:
`base_input * value_in - base_output * value_out + R * blind_r`, where the
bases come from `derivate_value_base` and `R` is
`NOTE_COMMITMENT_R_GENERATOR.to_curve()`. -/
def NetValueCommitment.new {G : Type} [AddCommGroup G] (generator R : G)
    (input_note output_note : NvcNote) (blind_r : Int) : NetValueCommitment G :=
  ⟨(input_note.value : Int) •
      derivate_value_base generator input_note.is_normal input_note.app input_note.data
    - (output_note.value : Int) •
      derivate_value_base generator output_note.is_normal output_note.app output_note.data
    + blind_r • R⟩

/-! ## Point coordinate accessors (`NetValueCommitment::get_x` / `get_y`)

The pallas point underlying a `NetValueCommitment` is modelled here, for the
coordinate accessors only, by its affine representation: `none` is the group
identity (whose affine `coordinates()` call returns `None` in the curve
crate), `some (x, y)` an affine point.  The base field is `ZMod pallasP` with
the real pallas base-field modulus. -/

/-- Modulus of the pallas base field. -/
def pallasP : Nat :=
  0x40000000000000000000000000000000224698fc094cf91b992d30ed00000001

/-- Pallas base field element. -/
abbrev Fp : Type := ZMod pallasP

/-- Affine representation of a pallas point: `none` is the identity. -/
abbrev PointRep : Type := Option (Fp × Fp)

/-- The group identity in the affine representation
(`pallas::Point::identity()`). -/
def pointIdentity : PointRep := none

/-- Translation of `to_affine().coordinates()`: returns `None` exactly on the
identity, and the affine coordinate pair otherwise. -/
def affineCoordinates (p : PointRep) : Option (Fp × Fp) := p

/-- Translation of `NetValueCommitment::get_x` on the affine representation:
if the point is the identity return the field zero, otherwise unwrap the
coordinates and return `x`.  The outer `Option` models the `unwrap`: `none`
is a panic. -/
def NetValueCommitment.get_x (p : PointRep) : Option Fp :=
  if p = pointIdentity then some 0
  else
    match affineCoordinates p with
    | some xy => some xy.1
    | none => none

/-- Translation of `NetValueCommitment::get_y`, analogously. -/
def NetValueCommitment.get_y (p : PointRep) : Option Fp :=
  if p = pointIdentity then some 0
  else
    match affineCoordinates p with
    | some xy => some xy.2
    | none => none

/-! ## API context (`taiga_halo2/src/api.rs`) -/

/-- Translation of `APIError`. -/
inductive APIError where
  | GenericError
  | NoteDecryptionError
  | RetrieveNoteError
  deriving Repr, DecidableEq

/-- The `note_directory` of `TestContext`: a map from names to
`(ValueBase, VPCircuit, Fp)` entries, modelled as an association list.  The
`ValueBase` and the parameter field are opaque (`Nat`), `VPCircuit` is the
empty struct (`Unit`). -/
abbrev NoteDirectory : Type := List (String × (Nat × Unit × Nat))

/-- HashMap lookup `note_directory.get(name)` on the association-list model. -/
def noteDirectoryGet (dir : NoteDirectory) (name : String) :
    Option (Nat × Unit × Nat) :=
  (dir.find? (fun kv => kv.1 = name)).map (fun kv => kv.2)

/-- Translation of `TestContext::retrieve_note_type`: it unwraps the map
lookup (panicking when the key is absent — the outer `none`) and then wraps
the stored value base in `Some`. -/
def retrieve_note_type (dir : NoteDirectory) (name : String) :
    Option (Option Nat) :=
  match noteDirectoryGet dir name with
  | none => none
  | some v => some (some v.1)

/-- Skeleton of `TestContext::retrieve_owned_notes`: it matches on
`retrieve_note_type`; in the `Some` case the commitment tree is scanned and
filtered (that loop is abstracted as the function `collect`, applied to the
retrieved value base), in the `None` case it returns
`Err(APIError::RetrieveNoteError)`.  The outer `Option` again models a
panic propagated from `retrieve_note_type`. -/
def retrieve_owned_notes (dir : NoteDirectory) (name : String)
    (collect : Nat → List Nat) : Option (Except APIError (List Nat)) :=
  match retrieve_note_type dir name with
  | none => none
  | some (some note_type) => some (Except.ok (collect note_type))
  | some none => some (Except.error APIError.RetrieveNoteError)

/-! ## Action (`src/halo2/action.rs`)

The action builder is in the sources; the halo2-module `Note`, `Nullifier`,
`MerklePath` and `UserSendAddress` types it uses are not, so those are
modelled from the spec (see the individual doc comments).  Field elements
(`pallas::Base`) and scalars are opaque `Nat` here, and the hash, commitment
and PRF primitives are explicit function parameters. -/

namespace Halo2Action

/-- Modelled from the spec: the key-vs-commitment duality for spending
authority (spec design note on the `NullifierKeyContainer`-like pattern;
`user.rs` is not in the sources): a two-case tagged value holding either a
commitment to the key (`closed`) or the key itself (`opened`). -/
inductive UserSendAddress where
  | closed (com : Nat)
  | opened (nk : Nat)
  deriving Repr, DecidableEq

/-- Constructor `UserSendAddress::from_closed`. -/
def UserSendAddress.from_closed (com : Nat) : UserSendAddress :=
  UserSendAddress.closed com

/-- Modelled from the spec: `get_nk` exposes the nullifier key only in the
key-known case; for a commitment no key is available. -/
def UserSendAddress.get_nk : UserSendAddress → Option Nat
  | UserSendAddress.closed _ => none
  | UserSendAddress.opened nk => some nk

/-- The halo2 user descriptor as read by `action.rs`: the send address and
an opaque receiving-VP description. -/
structure User where
  send_com : UserSendAddress
  recv_vp : Nat
  deriving Repr, DecidableEq

/-- The halo2 token descriptor as read by `action.rs`: an opaque token-VP
description. -/
structure Token where
  token_vp : Nat
  deriving Repr, DecidableEq

/-- A nullifier wraps one field element (`inner`). -/
structure Nullifier where
  inner : Nat
  deriving Repr, DecidableEq

/-- A note commitment is a curve point; `action.rs` reads its `x`
coordinate (`get_x`) for the Merkle leaf. -/
structure NoteCommitment where
  x : Nat
  y : Nat
  deriving Repr, DecidableEq

/-- Coordinate accessor `NoteCommitment::get_x`. -/
def NoteCommitment.get_x (c : NoteCommitment) : Nat := c.x

/-- Modelled from the spec: `Nullifier::derive_native` is a pseudo-random
function of (spending key, rho, psi, commitment) (`nullifier.rs` is not in
the sources); the PRF itself is the explicit parameter `prf`. -/
def Nullifier.derive_native (prf : Nat → Nat → Nat → NoteCommitment → Nat)
    (nk rho psi : Nat) (cm : NoteCommitment) : Nullifier :=
  ⟨prf nk rho psi cm⟩

/-- The halo2 note with the fields `action.rs` reads: owner, token, value,
`rho` (stored as a `Nullifier`), application data, blinding `rcm` and the
derived `psi`. -/
structure HNote where
  user : User
  token : Token
  value : Nat
  rho : Nullifier
  data : Nat
  rcm : Nat
  psi : Nat
  deriving Repr, DecidableEq

/-- Modelled from the spec: `Note::new` (the halo2 `note.rs` is not in the
sources) stores the supplied fields and derives `psi` deterministically from
the note randomness and `rho` (`derive_psi`, abstracted as the parameter
`derivePsi`). -/
def HNote.new (derivePsi : Nat → Nat → Nat) (user : User) (token : Token)
    (value : Nat) (rho : Nullifier) (data : Nat) (rcm : Nat) : HNote :=
  ⟨user, token, value, rho, data, rcm, derivePsi rcm rho.inner⟩

/-- An authentication path: a list of (sibling hash, is-right-child) pairs. -/
abbrev MerklePath : Type := List (Nat × Bool)

/-- A Merkle tree node wraps one field element. -/
structure Node where
  inner : Nat
  deriving Repr, DecidableEq

/-- Constructor `Node::new`. -/
def Node.new (v : Nat) : Node := ⟨v⟩

/-- Modelled from the spec: `MerklePath::root` recomputes the root by
folding the path bottom-up using the recorded ordering bits — when the
current node is the right child the level hash takes the sibling on the
left, otherwise on the right (`merkle_tree.rs` is not in the sources).  The
level hash is the explicit parameter `hash2`. -/
def MerklePath.root (hash2 : Nat → Nat → Nat) (path : MerklePath)
    (leaf : Node) : Node :=
  path.foldl
    (fun node sib =>
      if sib.2 then ⟨hash2 sib.1 node.inner⟩ else ⟨hash2 node.inner sib.1⟩)
    leaf

/-- Translation of the `Action` struct: the anchor root, the spend
nullifier and the output commitment. -/
structure Action where
  root : Nat
  nf : Nullifier
  cm : NoteCommitment
  deriving Repr, DecidableEq

/-- Translation of `SpendInfo`. -/
structure SpendInfo where
  note : HNote
  auth_path : MerklePath
  root : Nat
  deriving Repr, DecidableEq

/-- Translation of `OutputInfo`. -/
structure OutputInfo where
  addr_send_closed : UserSendAddress
  addr_recv_vp : Nat
  addr_token_vp : Nat
  value : Nat
  data : Nat
  deriving Repr, DecidableEq

/-- Translation of `ActionInfo`. -/
structure ActionInfo where
  spend : SpendInfo
  output : OutputInfo
  deriving Repr, DecidableEq

/-- Translation of `ActionInfo::new`. -/
def ActionInfo.new (spend : SpendInfo) (output : OutputInfo) : ActionInfo :=
  ⟨spend, output⟩

/-- Translation of `SpendInfo::new`: the root is recomputed from the
supplied Merkle path over the note's own commitment
(`merkle_path.root(Node::new(note.commitment().get_x()))`); the note
commitment function is the explicit parameter `commitF`. -/
def SpendInfo.new (hash2 : Nat → Nat → Nat) (commitF : HNote → NoteCommitment)
    (note : HNote) (merkle_path : MerklePath) : SpendInfo :=
  ⟨note, merkle_path,
    (MerklePath.root hash2 merkle_path (Node.new (commitF note).get_x)).inner⟩

/-- Translation of `ActionInfo::build`: compute the spend commitment,
unwrap the nullifier key (`get_nk().unwrap()` — the `none` result models the
panic), derive the nullifier, build the output note with `rho` equal to that
nullifier and a fresh `note_rcm` drawn from the supplied randomness, and
return the action `{root, nf, cm}`. -/
def ActionInfo.build (prf : Nat → Nat → Nat → NoteCommitment → Nat)
    (derivePsi : Nat → Nat → Nat) (commitF : HNote → NoteCommitment)
    (info : ActionInfo) (note_rcm : Nat) : Option Action :=
  let spend_cm := commitF info.spend.note
  match info.spend.note.user.send_com.get_nk with
  | none => none
  | some nk =>
    let nf := Nullifier.derive_native prf nk info.spend.note.rho.inner
      info.spend.note.psi spend_cm
    let user : User := ⟨info.output.addr_send_closed, info.output.addr_recv_vp⟩
    let token : Token := ⟨info.output.addr_token_vp⟩
    let output_note := HNote.new derivePsi user token info.output.value nf
      info.output.data note_rcm
    let output_cm := commitF output_note
    some ⟨info.spend.root, nf, output_cm⟩

end Halo2Action

/-! ## Balance validity predicate
(`taiga_zk_garage/src/circuit/vp_examples/balance.rs`)

The plonk `StandardComposer` is modelled in valued semantics: a note
variable is its assigned pair of field values, `assert_equal` records an
equality constraint between two values, and the `field_addition_gadget`
wire — whose value is forced to `a + b` in every satisfying assignment — is
represented by that forced value directly.  The constraint system is
satisfied when every recorded equality holds.  The field is an arbitrary
`AddCommMonoid` (the proofs need only `+` and `0`, so they hold in
particular for the zk-garage scalar field). -/

namespace ZkGarageBalance

/-- The values assigned to one note's VP variables: application address and
value, as field elements (`ValidityPredicateInputNoteVariables` /
`ValidityPredicateOutputNoteVariables` restricted to the two fields the
balance VP reads). -/
structure NoteVar (F : Type) where
  app_addr : F
  value : F
  deriving Repr, DecidableEq

/-- The composer state: the equality constraints recorded so far. -/
structure Composer (F : Type) where
  constraints : List (F × F)
  deriving Repr, DecidableEq

/-- Translation of `composer.assert_equal(a, b)`. -/
def Composer.assert_equal {F : Type} (c : Composer F) (a b : F) : Composer F :=
  ⟨(a, b) :: c.constraints⟩

/-- Translation of `field_addition_gadget(composer, a, b)`: returns the wire
carrying `a + b` (its defining constraint holds by construction in these
valued semantics, so no falsifiable constraint is recorded). -/
def field_addition_gadget {F : Type} [Add F] (c : Composer F) (a b : F) :
    F × Composer F :=
  (a + b, c)

/-- The constraint system is satisfied when every recorded equality holds. -/
def Composer.satisfied {F : Type} (c : Composer F) : Prop :=
  ∀ p ∈ c.constraints, p.1 = p.2

/-- Translation of `BalanceValidityPredicate::custom_constraints`: tie every
input and output application address to `input_note_variables[0].app_addr`,
sum the input values and the output values from `composer.zero_var()` with
the addition gadget, and assert the two sums equal.  Indexing an empty input
slice panics in Rust, modelled by `none`. -/
def custom_constraints {F : Type} [Add F] [Zero F]
    (input_note_variables output_note_variables : List (NoteVar F)) :
    Option (Composer F) :=
  match input_note_variables with
  | [] => none
  | i0 :: _ =>
    let var_app := i0.app_addr
    let c1 := input_note_variables.foldl
      (fun c nv => c.assert_equal nv.app_addr var_app) ⟨[]⟩
    let c2 := output_note_variables.foldl
      (fun c nv => c.assert_equal nv.app_addr var_app) c1
    let p1 := input_note_variables.foldl
      (fun p nv => field_addition_gadget p.2 p.1 nv.value) ((0 : F), c2)
    let p2 := output_note_variables.foldl
      (fun p nv => field_addition_gadget p.2 p.1 nv.value) ((0 : F), p1.2)
    some (p2.2.assert_equal p1.1 p2.1)

end ZkGarageBalance

/-! ## VP bytecode serialization (`taiga_halo2/src/circuit/vp_bytecode.rs`)

The three types derive borsh serialization.  The borsh layout (from the
borsh specification implemented by the derive macros) is embedded here
explicitly: a struct is the concatenation of its fields in declaration
order, an enum is a one-byte variant index followed by the payload, and a
`Vec` is a `u32` little-endian length followed by the elements.  Bytes are
`Fin 256`.  Borsh serialization fails when a length exceeds `u32::MAX`, so
the serializers return `Option`; deserializers consume a prefix and return
the remaining tail. -/

namespace VpBytecode

/-- A byte. -/
abbrev Byte : Type := Fin 256

/-- Translation of `ValidityPredicateRepresentation`: a portable VampIR
circuit description, or the enumerated native `Trivial` circuit. -/
inductive ValidityPredicateRepresentation where
  | VampIR (circuit : List Byte)
  | Trivial
  deriving Repr, DecidableEq

/-- Translation of `ValidityPredicateByteCode`: a representation plus
witness-input bytes. -/
structure ValidityPredicateByteCode where
  circuit : ValidityPredicateRepresentation
  inputs : List Byte
  deriving Repr, DecidableEq

/-- Translation of `ApplicationByteCode`: the governing VP bytecode plus
the auxiliary (dynamic) VP bytecodes. -/
structure ApplicationByteCode where
  app_vp_bytecode : ValidityPredicateByteCode
  dynamic_vp_bytecode : List ValidityPredicateByteCode
  deriving Repr, DecidableEq

/-- Little-endian `u32` encoding of a length. -/
def u32LE (n : Nat) : List Byte :=
  [⟨n % 256, Nat.mod_lt _ (by decide)⟩,
    ⟨n / 256 % 256, Nat.mod_lt _ (by decide)⟩,
    ⟨n / 65536 % 256, Nat.mod_lt _ (by decide)⟩,
    ⟨n / 16777216 % 256, Nat.mod_lt _ (by decide)⟩]

/-- Read a little-endian `u32` off the front of the input. -/
def readU32 : List Byte → Option (Nat × List Byte)
  | b0 :: b1 :: b2 :: b3 :: rest =>
      some (b0.val + 256 * b1.val + 65536 * b2.val + 16777216 * b3.val, rest)
  | _ => none

/-- Borsh serialization of `Vec<u8>`: `u32` length then the bytes; fails
when the length does not fit a `u32`. -/
def serializeVec (v : List Byte) : Option (List Byte) :=
  if v.length < 4294967296 then some (u32LE v.length ++ v) else none

/-- Borsh deserialization of `Vec<u8>`. -/
def readVec (bs : List Byte) : Option (List Byte × List Byte) :=
  match readU32 bs with
  | none => none
  | some (len, rest) =>
      if len ≤ rest.length then some (rest.take len, rest.drop len) else none

/-- Borsh serialization of the representation enum: variant index `0`
(`VampIR`, payload a `Vec<u8>`) or `1` (`Trivial`, no payload). -/
def serializeRepr : ValidityPredicateRepresentation → Option (List Byte)
  | ValidityPredicateRepresentation.VampIR circuit =>
      (serializeVec circuit).map (fun bs => ⟨0, by decide⟩ :: bs)
  | ValidityPredicateRepresentation.Trivial => some [⟨1, by decide⟩]

/-- Borsh deserialization of the representation enum; an unknown variant
index is rejected. -/
def readRepr : List Byte → Option (ValidityPredicateRepresentation × List Byte)
  | [] => none
  | t :: rest =>
      if t.val = 0 then
        (readVec rest).map
          (fun p => (ValidityPredicateRepresentation.VampIR p.1, p.2))
      else if t.val = 1 then
        some (ValidityPredicateRepresentation.Trivial, rest)
      else none

/-- Borsh serialization of `ValidityPredicateByteCode`: the two fields in
declaration order. -/
def serializeVPByteCode (b : ValidityPredicateByteCode) : Option (List Byte) :=
  match serializeRepr b.circuit, serializeVec b.inputs with
  | some cbs, some ibs => some (cbs ++ ibs)
  | _, _ => none

/-- Borsh deserialization of `ValidityPredicateByteCode`. -/
def readVPByteCode (bs : List Byte) :
    Option (ValidityPredicateByteCode × List Byte) :=
  match readRepr bs with
  | none => none
  | some (c, rest) =>
      match readVec rest with
      | none => none
      | some (inputs, rest2) => some (⟨c, inputs⟩, rest2)

/-- Serialize each element of a `Vec<ValidityPredicateByteCode>` in order. -/
def serializeVPListBody : List ValidityPredicateByteCode → Option (List Byte)
  | [] => some []
  | b :: bs =>
      match serializeVPByteCode b, serializeVPListBody bs with
      | some x, some y => some (x ++ y)
      | _, _ => none

/-- Borsh serialization of `Vec<ValidityPredicateByteCode>`: `u32` element
count then the serialized elements. -/
def serializeVPList (l : List ValidityPredicateByteCode) : Option (List Byte) :=
  if l.length < 4294967296 then
    (serializeVPListBody l).map (fun body => u32LE l.length ++ body)
  else none

/-- Read `n` consecutive `ValidityPredicateByteCode` values. -/
def readVPListN : Nat → List Byte →
    Option (List ValidityPredicateByteCode × List Byte)
  | 0, bs => some ([], bs)
  | n + 1, bs =>
      match readVPByteCode bs with
      | none => none
      | some (b, rest) =>
          match readVPListN n rest with
          | none => none
          | some (l, rest2) => some (b :: l, rest2)

/-- Borsh deserialization of `Vec<ValidityPredicateByteCode>`. -/
def readVPList (bs : List Byte) :
    Option (List ValidityPredicateByteCode × List Byte) :=
  match readU32 bs with
  | none => none
  | some (len, rest) => readVPListN len rest

/-- Borsh serialization of `ApplicationByteCode`: the governing bytecode
then the dynamic bytecode list. -/
def serializeAppByteCode (a : ApplicationByteCode) : Option (List Byte) :=
  match serializeVPByteCode a.app_vp_bytecode,
      serializeVPList a.dynamic_vp_bytecode with
  | some x, some y => some (x ++ y)
  | _, _ => none

/-- Borsh deserialization of `ApplicationByteCode`. -/
def readAppByteCode (bs : List Byte) :
    Option (ApplicationByteCode × List Byte) :=
  match readVPByteCode bs with
  | none => none
  | some (app, rest) =>
      match readVPList rest with
      | none => none
      | some (dyn, rest2) => some (⟨app, dyn⟩, rest2)

end VpBytecode

/-! ## Partial-fulfillment token swap
(`taiga_halo2/examples/tx_examples/partial_fulfillment_token_swap.rs` and
`tx_examples/token.rs`)

The transaction machinery the example drives (`transaction.rs`,
`shielded_ptx.rs`, the intent VP and `Swap::fill`) is not under the sources;
it is modelled from the spec at the value-balance level: a note is reduced
to its application (token name) and value, a partial transaction to its
input and output notes (including the zero-value padding notes), and
`Transaction::execute` checks that for every application the aggregate
signed value sum — inputs positive, outputs negative, a distinct value base
per application — is zero, returning `UnbalancedTransactionError` otherwise.
Proof verification and duplicate-nullifier detection are abstracted away:
in the scenario every proof is honestly generated and every nullifier is
fresh, so only the balance check can fail. -/

namespace TxExamples

/-- Translation of `Token`: a name and a value. -/
structure Token where
  name : String
  value : Nat
  deriving Repr, DecidableEq

/-- Constructor `Token::new`. -/
def Token.new (name : String) (value : Nat) : Token := ⟨name, value⟩

/-- A note reduced to its balance-relevant content: the application it
belongs to (identified by token name) and its value. -/
structure BNote where
  token : String
  value : Nat
  deriving Repr, DecidableEq

/-- A partial transaction reduced to its balance-relevant content: input
notes and output notes (each list includes the padding notes). -/
structure BPtx where
  inputs : List BNote
  outputs : List BNote
  deriving Repr, DecidableEq

/-- Modelled from the spec: the transaction-level error taxonomy
(`UnbalancedTransactionError` when the aggregate value sum is nonzero). -/
inductive TransactionError where
  | UnbalancedTransactionError
  | ProofVerificationError
  | DuplicateNullifierError
  deriving Repr, DecidableEq

/-- A zero-value padding note (`Note::random_padding_input_note` /
`random_padding_output_note` carry value zero under the trivial
application). -/
def paddingNote : BNote := ⟨"padding", 0⟩

/-- Signed value sum of one application `t` over a list of partial
transactions: inputs count positively, outputs negatively. -/
def tokenDelta (ptxs : List BPtx) (t : String) : Int :=
  (ptxs.map (fun p =>
    ((p.inputs.filter (fun n => n.token == t)).map
        (fun n => (n.value : Int))).sum
      - ((p.outputs.filter (fun n => n.token == t)).map
        (fun n => (n.value : Int))).sum)).sum

/-- Every application name occurring in a list of partial transactions. -/
def tokensOf (ptxs : List BPtx) : List String :=
  ptxs.foldr
    (fun p acc => p.inputs.map BNote.token ++ p.outputs.map BNote.token ++ acc)
    []

/-- Modelled from the spec: `Transaction::execute` checks the aggregate
per-application value-commitment sum and fails with
`UnbalancedTransactionError` when it is nonzero for some application. -/
def Transaction.execute (ptxs : List BPtx) : Except TransactionError Unit :=
  if (tokensOf ptxs).all (fun t => tokenDelta ptxs t == 0) then
    Except.ok ()
  else Except.error TransactionError.UnbalancedTransactionError

/-- Modelled from the spec: a swap intent records what is sold and what is
asked for. -/
structure Swap where
  sell : Token
  buy : Token
  deriving Repr, DecidableEq

/-- The dedicated intent application of a swap (its VP identity encodes the
swap terms). -/
def Swap.intentTokenName (s : Swap) : String :=
  "intent-" ++ s.sell.name ++ "-" ++ s.buy.name

/-- Modelled from the spec: `Swap::create_intent_note` produces a one-unit
note of the swap's intent application. -/
def Swap.create_intent_note (s : Swap) : BNote :=
  ⟨s.intentTokenName, 1⟩

/-- Modelled from the spec: `Swap::fill` against a partial offer — the
bought note carries the full offered amount of the asked token, and the
returned note refunds the unmatched fraction of the sold amount:
`sell.value * (buy.value - offer.value) / buy.value`. -/
def Swap.fill (s : Swap) (offer : Token) : BNote × BNote :=
  (⟨s.buy.name, offer.value⟩,
    ⟨s.sell.name, s.sell.value * (s.buy.value - offer.value) / s.buy.value⟩)

/-- Translation of `create_token_intent_ptx` (Alice): consume the sell note,
output the intent note, padded to two inputs and two outputs. -/
def create_token_intent_ptx (sell buy : Token) : BPtx × Swap :=
  let swap : Swap := ⟨sell, buy⟩
  let intent_note := swap.create_intent_note
  (⟨[⟨sell.name, sell.value⟩, paddingNote], [intent_note, paddingNote]⟩, swap)

/-- Translation of `create_token_swap_ptx` (Bob): consume the input token
note, output the output token note, padded. -/
def create_token_swap_ptx (input_token output_token : Token) : BPtx :=
  ⟨[⟨input_token.name, input_token.value⟩, paddingNote],
    [⟨output_token.name, output_token.value⟩, paddingNote]⟩

/-- Translation of `consume_token_intent_ptx` (the solver): consume the
intent note, output the bought note and the returned note from
`Swap::fill`; the returned note's value is a parameter so that the claim's
one-unit perturbation can be expressed (the faithful value is
`(swap.fill offer).2.value`). -/
def consume_token_intent_ptx (swap : Swap) (offer : Token)
    (returned_value : Nat) : BPtx :=
  let intent_note := swap.create_intent_note
  let bought := (swap.fill offer).1
  ⟨[intent_note, paddingNote],
    [bought, ⟨swap.sell.name, returned_value⟩]⟩

/-- Translation of `create_token_swap_transaction`, parametrized by the
solver's returned-note value: Alice sells 2 BTC asking 10 ETH via an
intent note; Bob offers 5 ETH and takes 1 BTC; the solver consumes the
intent note, outputs the 5 ETH bought note and the returned BTC note. -/
def create_token_swap_transaction_returned (returned_value : Nat) :
    List BPtx :=
  let sell := Token.new "btc" 2
  let buy := Token.new "eth" 10
  let alice := create_token_intent_ptx sell buy
  let offer := Token.new "eth" 5
  let returned := Token.new "btc" 1
  let bob_ptx := create_token_swap_ptx offer returned
  let solver_ptx := consume_token_intent_ptx alice.2 offer returned_value
  [alice.1, bob_ptx, solver_ptx]

/-- Translation of `create_token_swap_transaction` with the returned value
actually produced by `Swap::fill`. -/
def create_token_swap_transaction : List BPtx :=
  create_token_swap_transaction_returned
    ((Swap.mk (Token.new "btc" 2) (Token.new "eth" 10)).fill
      (Token.new "eth" 5)).2.value

end TxExamples

/-! ## Theorems for claims C1, C2, C9, C10 -/

/-- Claim C1: the claim asserts that `derivate_value_base` separates
applications; in the code it is a placeholder that returns the fixed
generator for every input, so two distinct applications (here app addresses
`0` and `1`, with `G := Int` and generator `2`) receive the same value base
and their value components can be netted against each other. -/
theorem derivate_value_base_not_separating :
    (0 : Nat) ≠ 1 ∧
      derivate_value_base (G := Int) 2 true 0 0 =
        derivate_value_base (G := Int) 2 true 1 0 := by
  exact ⟨by decide, rfl⟩

/-- Claim C2: `NetValueCommitment::new` equals the signed sum
`value_base(input) * value_in - value_base(output) * value_out + R * r`, and
when the two notes have equal values (their value bases always coincide,
see C1) the commitment reduces to the blinding term `r • R` alone. -/
theorem netValueCommitment_new_spec {G : Type} [AddCommGroup G]
    (generator R : G) (input_note output_note : NvcNote) (r : Int) :
    (NetValueCommitment.new generator R input_note output_note r).point =
        (input_note.value : Int) • derivate_value_base generator
            input_note.is_normal input_note.app input_note.data
          - (output_note.value : Int) • derivate_value_base generator
            output_note.is_normal output_note.app output_note.data
          + r • R
      ∧ derivate_value_base generator input_note.is_normal input_note.app
            input_note.data =
          derivate_value_base generator output_note.is_normal output_note.app
            output_note.data
      ∧ (input_note.value = output_note.value →
          (NetValueCommitment.new generator R input_note output_note r).point =
            r • R) := by
  refine ⟨rfl, rfl, fun hv => ?_⟩
  show (input_note.value : Int) • (generator : G)
      - (output_note.value : Int) • generator + r • R = r • R
  rw [hv, sub_self, zero_add]

/-- Witness for C2 at a concrete instance: `G := Int`, generator `2`,
`R := 5`, both notes of value `3`, blinding scalar `7`. -/
theorem netValueCommitment_new_spec_witness :
    (NetValueCommitment.new (G := Int) 2 5 ⟨true, 0, 0, 3⟩ ⟨false, 1, 4, 3⟩
        7).point = (7 : Int) • (5 : Int) :=
  (netValueCommitment_new_spec (G := Int) 2 5 ⟨true, 0, 0, 3⟩ ⟨false, 1, 4, 3⟩
      7).2.2 rfl

/-- Claim C9: `get_x` and `get_y` are total — on the identity they return
the field zero, on an affine point its `x` (resp. `y`) coordinate, and the
`unwrap` failure branch (the `none` result) is unreachable because it is
guarded by the identity check. -/
theorem netValueCommitment_get_coordinates_total (p : PointRep) :
    NetValueCommitment.get_x p =
        some (match p with | none => (0 : Fp) | some xy => xy.1)
      ∧ NetValueCommitment.get_y p =
        some (match p with | none => (0 : Fp) | some xy => xy.2) := by
  cases p with
  | none => exact ⟨rfl, rfl⟩
  | some xy =>
      constructor
      · simp [NetValueCommitment.get_x, pointIdentity, affineCoordinates]
      · simp [NetValueCommitment.get_y, pointIdentity, affineCoordinates]

/-- Claim C10: `retrieve_note_type` never returns `None`: when the name is a
key of the directory it returns `Some` of the stored value base, when the
name is absent it panics (modelled by the outer `none`) instead of returning
`None`, and consequently the `RetrieveNoteError` branch of
`retrieve_owned_notes` is unreachable. -/
theorem retrieve_note_type_never_none (dir : NoteDirectory) (name : String) :
    (∀ v, noteDirectoryGet dir name = some v →
        retrieve_note_type dir name = some (some v.1))
      ∧ (noteDirectoryGet dir name = none →
          retrieve_note_type dir name = none)
      ∧ retrieve_note_type dir name ≠ some none
      ∧ ∀ collect, retrieve_owned_notes dir name collect ≠
          some (Except.error APIError.RetrieveNoteError) := by
  refine ⟨fun v hv => ?_, fun hn => ?_, ?_, fun collect => ?_⟩
  · simp [retrieve_note_type, hv]
  · simp [retrieve_note_type, hn]
  · unfold retrieve_note_type
    cases noteDirectoryGet dir name <;> simp
  · unfold retrieve_owned_notes retrieve_note_type
    cases noteDirectoryGet dir name <;> simp

/-- Witness for C10 at a concrete directory: the key `btc` is present with
value base `7`, the key `eth` is absent. -/
theorem retrieve_note_type_never_none_witness :
    retrieve_note_type [("btc", (7, (), 0))] "btc" = some (some 7)
      ∧ retrieve_note_type [("btc", (7, (), 0))] "eth" = none :=
  ⟨(retrieve_note_type_never_none [("btc", (7, (), 0))] "btc").1 (7, (), 0)
      (by decide),
    (retrieve_note_type_never_none [("btc", (7, (), 0))] "eth").2.1 (by decide)⟩

namespace Halo2Action

/-- Claim C3: for every spend/output pair and supplied randomness,
`ActionInfo::build` computes the spent note's commitment, derives the
nullifier from the key, `rho`, `psi` and that commitment, constructs the
output note with `rho` equal to the just-derived nullifier (chaining),
computes the output note's commitment, and returns an action whose root is
the spend's root, whose `nf` is the derived nullifier and whose `cm` is the
output commitment; being a pure function of its arguments, the build is
deterministic given the inputs and the supplied randomness. -/
theorem actionInfo_build_spec (prf : Nat → Nat → Nat → NoteCommitment → Nat)
    (derivePsi : Nat → Nat → Nat) (commitF : HNote → NoteCommitment)
    (info : ActionInfo) (note_rcm nk : Nat)
    (h : info.spend.note.user.send_com.get_nk = some nk) :
    ActionInfo.build prf derivePsi commitF info note_rcm =
        some ⟨info.spend.root,
          Nullifier.derive_native prf nk info.spend.note.rho.inner
            info.spend.note.psi (commitF info.spend.note),
          commitF (HNote.new derivePsi
            ⟨info.output.addr_send_closed, info.output.addr_recv_vp⟩
            ⟨info.output.addr_token_vp⟩ info.output.value
            (Nullifier.derive_native prf nk info.spend.note.rho.inner
              info.spend.note.psi (commitF info.spend.note))
            info.output.data note_rcm)⟩
      ∧ (HNote.new derivePsi
            ⟨info.output.addr_send_closed, info.output.addr_recv_vp⟩
            ⟨info.output.addr_token_vp⟩ info.output.value
            (Nullifier.derive_native prf nk info.spend.note.rho.inner
              info.spend.note.psi (commitF info.spend.note))
            info.output.data note_rcm).rho =
          Nullifier.derive_native prf nk info.spend.note.rho.inner
            info.spend.note.psi (commitF info.spend.note) := by
  unfold ActionInfo.build
  rw [h]
  exact ⟨rfl, rfl⟩

/-- Witness for C3 at a concrete instance: PRF `a + b + c + cm.x`,
`derive_psi r rho = r + rho`, commitment `(value + data, rho)`; the spend
note has key `5`, `rho = 2`, `psi = 6`, value `4`, data `3`, the spend root
is `9`, the output has value `8`, data `10`, and the randomness supplies
`note_rcm = 3`.  The derived nullifier is `5 + 2 + 6 + (4 + 3) = 20` and the
output commitment is `(8 + 10, 20)`. -/
theorem actionInfo_build_spec_witness :
    ActionInfo.build (fun a b c cm => a + b + c + cm.x) (fun r rho => r + rho)
        (fun n => ⟨n.value + n.data, n.rho.inner⟩)
        ⟨⟨⟨⟨UserSendAddress.opened 5, 0⟩, ⟨0⟩, 4, ⟨2⟩, 3, 0, 6⟩, [], 9⟩,
          ⟨UserSendAddress.closed 1, 0, 0, 8, 10⟩⟩ 3 =
      some ⟨9, ⟨20⟩, ⟨18, 20⟩⟩ :=
  (actionInfo_build_spec (fun a b c cm => a + b + c + cm.x)
      (fun r rho => r + rho) (fun n => ⟨n.value + n.data, n.rho.inner⟩)
      ⟨⟨⟨⟨UserSendAddress.opened 5, 0⟩, ⟨0⟩, 4, ⟨2⟩, 3, 0, 6⟩, [], 9⟩,
        ⟨UserSendAddress.closed 1, 0, 0, 8, 10⟩⟩ 3 5 rfl).1

/-- Claim C4: when the spend note's nullifier-key container is in the
commitment case, the key is not available (`get_nk` is `None`) and
`ActionInfo::build` fails (the `unwrap` panic, modelled by `none`) instead
of succeeding; conversely a successful build implies the key was known, so a
commitment is never silently treated as a key. -/
theorem actionInfo_build_requires_key
    (prf : Nat → Nat → Nat → NoteCommitment → Nat)
    (derivePsi : Nat → Nat → Nat) (commitF : HNote → NoteCommitment)
    (info : ActionInfo) (note_rcm : Nat) :
    (∀ c, info.spend.note.user.send_com = UserSendAddress.closed c →
        ActionInfo.build prf derivePsi commitF info note_rcm = none)
      ∧ (ActionInfo.build prf derivePsi commitF info note_rcm = none ↔
          info.spend.note.user.send_com.get_nk = none)
      ∧ (∀ c, (UserSendAddress.closed c).get_nk = none) := by
  refine ⟨fun c hc => ?_, ?_, fun c => rfl⟩
  · unfold ActionInfo.build
    rw [hc]
    rfl
  · unfold ActionInfo.build
    cases hnk : info.spend.note.user.send_com.get_nk <;> simp

/-- Witness for C4 at a concrete instance: a spend note whose send address
is the commitment `UserSendAddress.closed 11`. -/
theorem actionInfo_build_requires_key_witness :
    ActionInfo.build (fun a b c cm => a + b + c + cm.x) (fun r rho => r + rho)
        (fun n => ⟨n.value + n.data, n.rho.inner⟩)
        ⟨⟨⟨⟨UserSendAddress.closed 11, 0⟩, ⟨0⟩, 4, ⟨2⟩, 3, 0, 6⟩, [], 9⟩,
          ⟨UserSendAddress.closed 1, 0, 0, 8, 10⟩⟩ 3 = none :=
  (actionInfo_build_requires_key (fun a b c cm => a + b + c + cm.x)
      (fun r rho => r + rho) (fun n => ⟨n.value + n.data, n.rho.inner⟩)
      ⟨⟨⟨⟨UserSendAddress.closed 11, 0⟩, ⟨0⟩, 4, ⟨2⟩, 3, 0, 6⟩, [], 9⟩,
        ⟨UserSendAddress.closed 1, 0, 0, 8, 10⟩⟩ 3).1 11 rfl

/-- Claim C8: every `SpendInfo` built by `SpendInfo::new` carries a root that
is recomputed from the supplied Merkle path over the note's own commitment,
and every action built over such a spend carries exactly that recomputed
root as its anchor — the constructor takes only a note and a path, so no
independent anchor can be supplied. -/
theorem spendInfo_new_root_recomputed (hash2 : Nat → Nat → Nat)
    (prf : Nat → Nat → Nat → NoteCommitment → Nat)
    (derivePsi : Nat → Nat → Nat) (commitF : HNote → NoteCommitment)
    (note : HNote) (merkle_path : MerklePath) (output : OutputInfo)
    (note_rcm : Nat) :
    (SpendInfo.new hash2 commitF note merkle_path).root =
        (MerklePath.root hash2 merkle_path
          (Node.new (commitF note).get_x)).inner
      ∧ ∀ a, ActionInfo.build prf derivePsi commitF
            (ActionInfo.new (SpendInfo.new hash2 commitF note merkle_path)
              output) note_rcm = some a →
          a.root = (MerklePath.root hash2 merkle_path
            (Node.new (commitF note).get_x)).inner := by
  refine ⟨rfl, fun a ha => ?_⟩
  unfold ActionInfo.build at ha
  cases hnk : (ActionInfo.new (SpendInfo.new hash2 commitF note merkle_path)
      output).spend.note.user.send_com.get_nk with
  | none => rw [hnk] at ha; exact absurd ha (by simp)
  | some nk =>
      rw [hnk] at ha
      simp only [Option.some.injEq] at ha
      rw [← ha]
      rfl

/-- Witness for C8 at a concrete instance: a one-level path with sibling `7`
on the left (current node a right child), level hash `a * 100 + b`; the leaf
is the commitment x-coordinate `4 + 3 = 7`, so the recomputed root is
`7 * 100 + 7 = 707`. -/
theorem spendInfo_new_root_recomputed_witness :
    (SpendInfo.new (fun a b => a * 100 + b)
        (fun n => ⟨n.value + n.data, n.rho.inner⟩)
        ⟨⟨UserSendAddress.opened 5, 0⟩, ⟨0⟩, 4, ⟨2⟩, 3, 0, 6⟩
        [(7, true)]).root = 707
      ∧ ∀ a, ActionInfo.build (fun a b c cm => a + b + c + cm.x)
            (fun r rho => r + rho) (fun n => ⟨n.value + n.data, n.rho.inner⟩)
            (ActionInfo.new (SpendInfo.new (fun a b => a * 100 + b)
              (fun n => ⟨n.value + n.data, n.rho.inner⟩)
              ⟨⟨UserSendAddress.opened 5, 0⟩, ⟨0⟩, 4, ⟨2⟩, 3, 0, 6⟩
              [(7, true)]) ⟨UserSendAddress.closed 1, 0, 0, 8, 10⟩) 3 =
            some a → a.root = 707 :=
  spendInfo_new_root_recomputed (fun a b => a * 100 + b)
    (fun a b c cm => a + b + c + cm.x) (fun r rho => r + rho)
    (fun n => ⟨n.value + n.data, n.rho.inner⟩)
    ⟨⟨UserSendAddress.opened 5, 0⟩, ⟨0⟩, 4, ⟨2⟩, 3, 0, 6⟩ [(7, true)]
    ⟨UserSendAddress.closed 1, 0, 0, 8, 10⟩ 3

end Halo2Action

namespace ZkGarageBalance

theorem foldl_addition_gadget {F : Type} [Add F] (l : List (NoteVar F))
    (acc : F) (c : Composer F) :
    l.foldl (fun p nv => field_addition_gadget p.2 p.1 nv.value) (acc, c) =
      (l.foldl (fun a nv => a + nv.value) acc, c) := by
  induction l generalizing acc with
  | nil => rfl
  | cons x xs ih => exact ih (acc + x.value)

theorem foldl_assert_constraints {F : Type} (l : List (NoteVar F)) (va : F)
    (c0 : Composer F) :
    (l.foldl (fun c nv => c.assert_equal nv.app_addr va) c0).constraints =
      (l.map (fun nv => (nv.app_addr, va))).reverse ++ c0.constraints := by
  induction l generalizing c0 with
  | nil => simp
  | cons x xs ih =>
      rw [List.foldl_cons, ih]
      simp [Composer.assert_equal, List.append_assoc]

theorem foldl_add_eq_sum {F : Type} [AddCommMonoid F] (l : List (NoteVar F)) :
    l.foldl (fun a nv => a + nv.value) 0 = (l.map NoteVar.value).sum := by
  rw [List.sum_eq_foldl, List.foldl_map]

end ZkGarageBalance

namespace ZkGarageBalance

theorem satisfied_assert {F : Type} (c : Composer F) (a b : F) :
    (c.assert_equal a b).satisfied ↔ a = b ∧ c.satisfied := by
  simp [Composer.satisfied, Composer.assert_equal]

theorem satisfied_foldl_assert {F : Type} (l : List (NoteVar F)) (va : F)
    (c0 : Composer F) :
    (l.foldl (fun c nv => c.assert_equal nv.app_addr va) c0).satisfied ↔
      (∀ nv ∈ l, nv.app_addr = va) ∧ c0.satisfied := by
  constructor
  · intro hs
    refine ⟨fun nv hnv => ?_, fun p hp => ?_⟩
    · exact hs (nv.app_addr, va) (by
        rw [foldl_assert_constraints]
        exact List.mem_append_left _ (List.mem_reverse.mpr
          (List.mem_map_of_mem _ hnv)))
    · exact hs p (by
        rw [foldl_assert_constraints]
        exact List.mem_append_right _ hp)
  · rintro ⟨happ, hc0⟩ p hp
    rw [foldl_assert_constraints] at hp
    rcases List.mem_append.mp hp with hl | hr
    · obtain ⟨nv, hnv, hpe⟩ := List.mem_map.mp (List.mem_reverse.mp hl)
      rw [← hpe]
      exact happ nv hnv
    · exact hc0 p hr

/-- Claim C6: the balance validity predicate's constraint system is
satisfied exactly when every input and output note variable carries the same
application address (all tied to the first input's) and the field sum of the
input note values equals the field sum of the output note values; any note
assignment violating either condition fails the constraint system. -/
theorem balanceVP_custom_constraints_satisfied_iff {F : Type} [AddCommMonoid F]
    (i0 : NoteVar F) (irest outputs : List (NoteVar F)) (comp : Composer F)
    (h : custom_constraints (i0 :: irest) outputs = some comp) :
    comp.satisfied ↔
      ((∀ nv ∈ (i0 :: irest) ++ outputs, nv.app_addr = i0.app_addr)
        ∧ ((i0 :: irest).map NoteVar.value).sum =
            (outputs.map NoteVar.value).sum) := by
  simp only [custom_constraints, foldl_addition_gadget, Option.some.injEq] at h
  subst h
  rw [satisfied_assert, satisfied_foldl_assert, satisfied_foldl_assert,
    foldl_add_eq_sum, foldl_add_eq_sum]
  have hempty : (⟨[]⟩ : Composer F).satisfied := by
    intro p hp
    exact absurd hp (List.not_mem_nil p)
  constructor
  · rintro ⟨hsum, hout, hin, -⟩
    refine ⟨fun nv hnv => ?_, hsum⟩
    rcases List.mem_append.mp hnv with hl | hr
    · exact hin nv hl
    · exact hout nv hr
  · rintro ⟨happ, hsum⟩
    exact ⟨hsum, fun nv hnv => happ nv (List.mem_append_right _ hnv),
      fun nv hnv => happ nv (List.mem_append_left _ hnv), hempty⟩

/-- Witness for C6 at a concrete instance over `F := Int`: inputs
`[(5, 3), (5, 4)]`, outputs `[(5, 7)]` — same application `5` everywhere and
`3 + 4 = 7`, so the recorded constraints `[(7, 7), (5, 5), (5, 5), (5, 5)]`
are all satisfied. -/
theorem balanceVP_custom_constraints_satisfied_iff_witness :
    Composer.satisfied (F := Int) ⟨[(7, 7), (5, 5), (5, 5), (5, 5)]⟩ :=
  (balanceVP_custom_constraints_satisfied_iff (F := Int) ⟨5, 3⟩ [⟨5, 4⟩]
      [⟨5, 7⟩] ⟨[(7, 7), (5, 5), (5, 5), (5, 5)]⟩ rfl).mpr
    ⟨by decide, by decide⟩

end ZkGarageBalance

namespace VpBytecode

theorem readU32_u32LE (n : Nat) (hn : n < 4294967296) (rest : List Byte) :
    readU32 (u32LE n ++ rest) = some (n, rest) := by
  show some (n % 256 + 256 * (n / 256 % 256) + 65536 * (n / 65536 % 256)
      + 16777216 * (n / 16777216 % 256), rest) = some (n, rest)
  have h : n % 256 + 256 * (n / 256 % 256) + 65536 * (n / 65536 % 256)
      + 16777216 * (n / 16777216 % 256) = n := by omega
  rw [h]

theorem readVec_serializeVec (v out rest : List Byte)
    (h : serializeVec v = some out) :
    readVec (out ++ rest) = some (v, rest) := by
  unfold serializeVec at h
  split at h
  · injection h with h'
    subst h'
    unfold readVec
    rw [List.append_assoc]
    simp only [readU32_u32LE v.length (by assumption)]
    rw [if_pos (by simp)]
    rw [List.take_left, List.drop_left]
  · exact Option.noConfusion h

theorem readRepr_serializeRepr (c : ValidityPredicateRepresentation)
    (out rest : List Byte) (h : serializeRepr c = some out) :
    readRepr (out ++ rest) = some (c, rest) := by
  cases c with
  | VampIR v =>
      simp only [serializeRepr] at h
      cases hv : serializeVec v with
      | none => rw [hv] at h; exact Option.noConfusion h
      | some bs =>
          rw [hv] at h
          injection h with h'
          subst h'
          show (readVec (bs ++ rest)).map
            (fun p => (ValidityPredicateRepresentation.VampIR p.1, p.2)) = _
          rw [readVec_serializeVec v bs rest hv]
          rfl
  | Trivial =>
      injection h with h'
      subst h'
      rfl

theorem readVPByteCode_serialize (b : ValidityPredicateByteCode)
    (out rest : List Byte) (h : serializeVPByteCode b = some out) :
    readVPByteCode (out ++ rest) = some (b, rest) := by
  unfold serializeVPByteCode at h
  cases hc : serializeRepr b.circuit with
  | none =>
      rw [hc] at h
      cases hi : serializeVec b.inputs <;> rw [hi] at h <;>
        exact Option.noConfusion h
  | some cbs =>
      rw [hc] at h
      cases hi : serializeVec b.inputs with
      | none => rw [hi] at h; exact Option.noConfusion h
      | some ibs =>
          rw [hi] at h
          injection h with h'
          subst h'
          unfold readVPByteCode
          rw [List.append_assoc]
          simp only [readRepr_serializeRepr b.circuit cbs (ibs ++ rest) hc]
          simp only [readVec_serializeVec b.inputs ibs rest hi]

theorem readVPListN_serializeBody (l : List ValidityPredicateByteCode)
    (out rest : List Byte) (h : serializeVPListBody l = some out) :
    readVPListN l.length (out ++ rest) = some (l, rest) := by
  induction l generalizing out rest with
  | nil =>
      injection h with h'
      subst h'
      rfl
  | cons b bs ih =>
      unfold serializeVPListBody at h
      cases hb : serializeVPByteCode b with
      | none =>
          rw [hb] at h
          cases hbs : serializeVPListBody bs <;> rw [hbs] at h <;>
            exact Option.noConfusion h
      | some x =>
          rw [hb] at h
          cases hbs : serializeVPListBody bs with
          | none => rw [hbs] at h; exact Option.noConfusion h
          | some y =>
              rw [hbs] at h
              injection h with h'
              subst h'
              show readVPListN (bs.length + 1) ((x ++ y) ++ rest) =
                some (b :: bs, rest)
              rw [List.append_assoc]
              simp only [readVPListN,
                readVPByteCode_serialize b x (y ++ rest) hb, ih y rest hbs]

theorem readVPList_serializeVPList (l : List ValidityPredicateByteCode)
    (out rest : List Byte) (h : serializeVPList l = some out) :
    readVPList (out ++ rest) = some (l, rest) := by
  unfold serializeVPList at h
  split at h
  · cases hb : serializeVPListBody l with
    | none => rw [hb] at h; exact Option.noConfusion h
    | some body =>
        rw [hb] at h
        injection h with h'
        subst h'
        unfold readVPList
        rw [List.append_assoc]
        simp only [readU32_u32LE l.length (by assumption)]
        exact readVPListN_serializeBody l body rest hb
  · exact Option.noConfusion h

theorem readAppByteCode_serialize (a : ApplicationByteCode)
    (out rest : List Byte) (h : serializeAppByteCode a = some out) :
    readAppByteCode (out ++ rest) = some (a, rest) := by
  unfold serializeAppByteCode at h
  cases hc : serializeVPByteCode a.app_vp_bytecode with
  | none =>
      rw [hc] at h
      cases hd : serializeVPList a.dynamic_vp_bytecode <;> rw [hd] at h <;>
        exact Option.noConfusion h
  | some x =>
      rw [hc] at h
      cases hd : serializeVPList a.dynamic_vp_bytecode with
      | none => rw [hd] at h; exact Option.noConfusion h
      | some y =>
          rw [hd] at h
          injection h with h'
          subst h'
          unfold readAppByteCode
          rw [List.append_assoc]
          simp only [readVPByteCode_serialize a.app_vp_bytecode x (y ++ rest) hc]
          simp only [readVPList_serializeVPList a.dynamic_vp_bytecode y rest hd]

/-- Claim C7: VP bytecode serialization round-trips losslessly — whenever a
`ValidityPredicateByteCode` or an `ApplicationByteCode` serializes (borsh
serialization fails only when a vector length exceeds `u32::MAX`),
deserializing the serialized bytes yields a value equal to the original,
consuming the bytes exactly. -/
theorem vp_bytecode_serialization_roundtrip :
    (∀ (b : ValidityPredicateByteCode) (out : List Byte),
        serializeVPByteCode b = some out → readVPByteCode out = some (b, []))
      ∧ (∀ (a : ApplicationByteCode) (out : List Byte),
        serializeAppByteCode a = some out →
          readAppByteCode out = some (a, [])) := by
  constructor
  · intro b out h
    have hb := readVPByteCode_serialize b out [] h
    rwa [List.append_nil] at hb
  · intro a out h
    have ha := readAppByteCode_serialize a out [] h
    rwa [List.append_nil] at ha

/-- Witness for C7 at concrete values: the bytecode `(Trivial, [3, 7])`
serializes to `[1, 2, 0, 0, 0, 3, 7]` and deserializes back, and the
application bytecode `((Trivial, [3, 7]), [(VampIR [9], [])])` round-trips
likewise. -/
theorem vp_bytecode_serialization_roundtrip_witness :
    readVPByteCode [1, 2, 0, 0, 0, 3, 7] =
        some (⟨ValidityPredicateRepresentation.Trivial, [3, 7]⟩, [])
      ∧ readAppByteCode [1, 2, 0, 0, 0, 3, 7, 1, 0, 0, 0,
          0, 1, 0, 0, 0, 9, 0, 0, 0, 0] =
        some (⟨⟨ValidityPredicateRepresentation.Trivial, [3, 7]⟩,
          [⟨ValidityPredicateRepresentation.VampIR [9], []⟩]⟩, []) :=
  ⟨vp_bytecode_serialization_roundtrip.1
      ⟨ValidityPredicateRepresentation.Trivial, [3, 7]⟩
      [1, 2, 0, 0, 0, 3, 7] (by decide),
    vp_bytecode_serialization_roundtrip.2
      ⟨⟨ValidityPredicateRepresentation.Trivial, [3, 7]⟩,
        [⟨ValidityPredicateRepresentation.VampIR [9], []⟩]⟩
      [1, 2, 0, 0, 0, 3, 7, 1, 0, 0, 0, 0, 1, 0, 0, 0, 9, 0, 0, 0, 0]
      (by decide)⟩

end VpBytecode

namespace TxExamples

/-- Claim C5: in the partial-fulfillment swap scenario the returned amount
computed by the fill is 1 BTC, the transaction combining Alice's, Bob's and
the solver's partial transactions satisfies the global per-application
zero-sum check so `execute()` succeeds, and changing the returned amount by
one unit in either direction makes `execute()` fail with
`UnbalancedTransactionError`. -/
theorem partial_fulfillment_token_swap_tx :
    ((Swap.mk (Token.new "btc" 2) (Token.new "eth" 10)).fill
        (Token.new "eth" 5)).2.value = 1
      ∧ Transaction.execute create_token_swap_transaction = Except.ok ()
      ∧ Transaction.execute (create_token_swap_transaction_returned 2) =
        Except.error TransactionError.UnbalancedTransactionError
      ∧ Transaction.execute (create_token_swap_transaction_returned 0) =
        Except.error TransactionError.UnbalancedTransactionError := by
  exact ⟨rfl, rfl, rfl, rfl⟩

end TxExamples
